import Mathlib

/-!
# PracticeRfRx: the receive callback of `main.c`

A shallow embedding of `rx_callback` (src/main.c, lines 32-100) and of the
successive invocations the driver makes of it.

Conventions of the embedding.

* `float` and `float complex` values are rationals and pairs of rationals.  The
  only arithmetic the callback itself performs on samples is `(float)b / 128.0f`
  for a byte value `b`; a byte value is exactly representable as a `float` and a
  division by 128 only changes the exponent, so the rational quotient is the
  exact value the C code computes.  The `float` constants the callback passes to
  the library (`r`, `bw`) are the rationals those floats are, not the decimal
  fractions they round.
* The liquid-dsp objects (`resamp_crcf`, `freqdem`) are not part of the
  repository.  They are a parameter of the model: a record `Liquid R D` of a
  state type for each object and one function for each library call.
* What the C run time decides is an explicit input of every call (`Env`):
  whether each `malloc` succeeds, the indeterminate contents of the block
  `malloc` returns for `output_samples`, and how many items `fwrite` persists.
* Dereferencing a null pointer and storing past the end of a block are
  undefined behaviour; the model stops with a `Fault` there.
* `outputFile` is taken to be open for writing, as `main` leaves it before it
  starts the stream.
-/

namespace PracticeRfRx

/-- One `float complex`: real part, imaginary part. -/
abbrev ComplexSample := ℚ × ℚ

/-- One `float` of demodulated output. -/
abbrev AudioSample := ℚ

/-- Modelled from the spec: the transfer record `hackrf_transfer` is declared in
`hackrf.h`, which is not under src/.  The callback uses two of its fields: the
byte buffer and the number of valid bytes in it.  Following the spec (RawBuffer:
"an ordered sequence of interleaved signed 8-bit samples") an element of
`buffer` is the integer value of one sample; the model puts no bound on it. -/
structure hackrf_transfer where
  buffer : List Int
  valid_length : Nat

/-- The liquid-dsp calls `rx_callback` makes, over a resampler state type `R` and
a demodulator state type `D`.  `resamp_crcf_execute q x y &nw` takes one input
sample and stores `nw` output samples at `y`: here it returns the new state and
the list of the samples it stores (so `nw` is the length of that list).
`freqdem_demodulate q x &m` returns the new state and the output sample. -/
structure Liquid (R D : Type) where
  resamp_crcf_create : ℚ → Nat → ℚ → ℚ → Nat → R
  resamp_crcf_execute : R → ComplexSample → R × List ComplexSample
  freqdem_create : ℚ → D
  freqdem_demodulate : D → ComplexSample → D × AudioSample

/-- The heap objects a call of `rx_callback` creates. -/
inductive Resource
  | complex_samples
  | resampler
  | output_samples
  | demod
  | audioSamples
  deriving DecidableEq, Repr

/-- Undefined behaviour the callback can run into. -/
inductive Fault
  | null_deref
  | out_of_bounds
  deriving DecidableEq, Repr

/-- What the C run time decides during one call. -/
structure Env where
  /-- whether `malloc` of `complex_samples` (line 37) returns a block -/
  malloc_complex : Bool
  /-- whether `malloc` of `output_samples` (line 68) returns a block -/
  malloc_output : Bool
  /-- whether `malloc` of `audioSamples` (line 78) returns a block -/
  malloc_samples : Bool
  /-- the indeterminate initial content of slot `i` of `output_samples` -/
  garbage : Nat → ComplexSample
  /-- the number of items `fwrite` (line 92) persists, when fewer than requested -/
  fwrite_count : Nat

/-- Everything that outlives a call: the content of `outputFile`, what was
printed on `stderr` and `stdout`, and the heap objects still allocated. -/
structure World where
  sink : List AudioSample
  stderr : List String
  stdout : List (Nat × AudioSample)
  live : List Resource

/-- The values the local variables of one call take (ghost record).  A field is
`none` when the call never reaches the line that sets it. -/
structure Trace (R D : Type) where
  /-- `complex_samples` after the conversion loop (lines 44-48) -/
  complex_samples : Option (List ComplexSample) := none
  /-- `resampler` as created at line 66 -/
  resampler_start : Option R := none
  /-- `resampler` after the loop of lines 70-73 -/
  resampler_end : Option R := none
  /-- the final `j` of the loop of lines 70-73: the sum of the counts `nw` -/
  emitted : Option Nat := none
  /-- `demod` as created at line 77 -/
  demod_start : Option D := none
  /-- `demod` after the loop of lines 86-89 -/
  demod_end : Option D := none
  /-- the samples passed to `freqdem_demodulate`, in call order -/
  demodulated : List ComplexSample := []
  /-- the samples passed to `fwrite` (line 92), when it is called -/
  fwrite_request : Option (List AudioSample) := none

/-- A returned call: the return value, the world it leaves, and its trace. -/
structure Return (R D : Type) where
  ret : Int
  world : World
  trace : Trace R D

/-- Line 35: `num_samples = transfer->valid_length / 2` (integer division). -/
def num_samples (t : hackrf_transfer) : Nat := t.valid_length / 2

/-- Lines 44-48, the conversion loop: for `i` from 0 below `num_samples`,
`complex_samples[i] = buffer[2*i]/128 + buffer[2*i+1]/128 * I`. -/
def complex_samples (t : hackrf_transfer) : List ComplexSample :=
  (List.range (num_samples t)).map fun i =>
    (((t.buffer.getD (2 * i) 0 : Int) : ℚ) / 128, ((t.buffer.getD (2 * i + 1) 0 : Int) : ℚ) / 128)

/-- Lines 55-56. -/
def interpFactor : Nat := 16

/-- Lines 55-56. -/
def decFactor : Nat := 100

/-- Line 59: `h_len`, the filter semi-length. -/
def h_len : Nat := 13

/-- Line 60: `r = (float)interpFactor / (float)decFactor`.  The quotient 16/100 is
not a `float`: the division rounds it to the nearest one, which is
`10737418 / 2^26`, just below 16/100. -/
def r : ℚ := 10737418 / 67108864

/-- Line 61: `bw = 0.45f`, the `float` nearest to 45/100, which is
`15099494 / 2^25`. -/
def bw : ℚ := 15099494 / 33554432

/-- Line 62: `slsl = 60.0f`, a `float`. -/
def slsl : ℚ := 60

/-- Line 63: `npfb`, the number of filters in the bank. -/
def npfb : Nat := 32

/-- Line 76: `modIndex = 5.0f`, a `float`. -/
def modIndex : ℚ := 5

/-- Line 67: `(size_t)((double)num_samples * interpFactor / decFactor) + 5`.
The product `16 * num_samples` is exact in `double` and the quotient by 100 is
correctly rounded, which cannot reach the next integer for any count that
`valid_length` (an `int`) allows, so the truncation is the integer quotient. -/
def num_output_samples (n : Nat) : Nat := n * interpFactor / decFactor + 5

/-- What `resamp_crcf_execute` does to the block at `&output_samples[j]`:
it stores the samples `out` in the slots `j`, `j+1`, ...  Nothing is stored
when `out` is empty; storing through a null pointer or past the end of the
block is a fault. -/
def store : Option (List ComplexSample) → Nat → List ComplexSample →
    Except Fault (Option (List ComplexSample))
  | buf, _, [] => .ok buf
  | none, _, _ :: _ => .error .null_deref
  | some b, j, x :: xs =>
    if j + (x :: xs).length ≤ b.length then
      .ok (some (b.take j ++ (x :: xs) ++ b.drop (j + (x :: xs).length)))
    else .error .out_of_bounds

/-- Lines 70-73: each input sample goes through `resamp_crcf_execute`, which
stores its `nw` outputs at `output_samples[j]`, then `j += nw`.  Returns the
resampler state, the block and `j` after the loop. -/
def resample_loop {R D : Type} (L : Liquid R D) :
    R → List ComplexSample → Option (List ComplexSample) → Nat →
    Except Fault (R × Option (List ComplexSample) × Nat)
  | s, [], buf, j => .ok (s, buf, j)
  | s, x :: xs, buf, j =>
    match store buf j (L.resamp_crcf_execute s x).2 with
    | .error f => .error f
    | .ok buf1 =>
      resample_loop L (L.resamp_crcf_execute s x).1 xs buf1 (j + (L.resamp_crcf_execute s x).2.length)

/-- Lines 86-89: every slot `output_samples[i]`, `i` from 0 below
`num_output_samples`, goes through `freqdem_demodulate`.  Returns the
demodulator state after the loop and `audioSamples`. -/
def demod_loop {R D : Type} (L : Liquid R D) : D → List ComplexSample → D × List AudioSample
  | d, [] => (d, [])
  | d, x :: xs =>
    ((demod_loop L (L.freqdem_demodulate d x).1 xs).1,
      (L.freqdem_demodulate d x).2 :: (demod_loop L (L.freqdem_demodulate d x).1 xs).2)

/-- The call `free(p)`: the block leaves the heap, and nothing happens when `p` is
null (`present = false`). -/
def release (present : Bool) (r : Resource) (live : List Resource) : List Resource :=
  if present then live.erase r else live

/-- Line 88: `printf("Audio Sample %zu: %f\n", i, audioSamples[i])`, one line
per index. -/
def printed (samples : List AudioSample) : List (Nat × AudioSample) :=
  (List.range samples.length).zip samples

/-- `rx_callback` (lines 32-100), with the trace of its local variables. -/
def rx_callback_traced {R D : Type} (L : Liquid R D) (t : hackrf_transfer) (e : Env)
    (w : World) : Except Fault (Return R D) :=
  -- lines 37-41
  if e.malloc_complex = false then
    .ok { ret := -1
          world := { w with stderr := w.stderr ++ ["Memory allocation failed\n"] }
          trace := {} }
  else
    -- lines 44-48
    let cs := complex_samples t
    -- line 66
    let resampler := L.resamp_crcf_create r h_len bw slsl npfb
    -- lines 67-68: the result of malloc is not tested
    let n := num_output_samples (num_samples t)
    let output_samples : Option (List ComplexSample) :=
      if e.malloc_output then some ((List.range n).map e.garbage) else none
    let live1 : List Resource :=
      if e.malloc_output then [.output_samples, .resampler, .complex_samples] ++ w.live
      else [.resampler, .complex_samples] ++ w.live
    -- lines 70-73
    match resample_loop L resampler cs output_samples 0 with
    | .error f => .error f
    | .ok (resampler1, output1, j) =>
      -- line 77
      let demod := L.freqdem_create modIndex
      -- lines 78-85
      if e.malloc_samples = false then
        .ok { ret := -1
              world :=
                { w with
                  stderr := w.stderr ++ ["Memory allocation failed for audio samples\n"]
                  live := release e.malloc_output .output_samples
                    ((Resource.demod :: live1).erase .demod) }
              trace :=
                { complex_samples := some cs
                  resampler_start := some resampler
                  resampler_end := some resampler1
                  emitted := some j
                  demod_start := some demod
                  demod_end := some demod } }
      else
        -- lines 86-89
        match output1 with
        | none => .error .null_deref
        | some out =>
          let r := demod_loop L demod out
          -- lines 92-99
          .ok { ret := 0
                world :=
                  { sink := w.sink ++ r.2.take e.fwrite_count
                    stderr := w.stderr
                    stdout := w.stdout ++ printed r.2
                    live :=
                      ((((Resource.audioSamples :: Resource.demod :: live1).erase
                        .resampler).erase .demod).erase .complex_samples).erase .output_samples }
                trace :=
                  { complex_samples := some cs
                    resampler_start := some resampler
                    resampler_end := some resampler1
                    emitted := some j
                    demod_start := some demod
                    demod_end := some r.1
                    demodulated := out
                    fwrite_request := some r.2 } }

/-- `rx_callback` as the driver sees it: the return value and the world. -/
def rx_callback {R D : Type} (L : Liquid R D) (t : hackrf_transfer) (e : Env) (w : World) :
    Except Fault (Int × World) :=
  match rx_callback_traced L t e w with
  | .error f => .error f
  | .ok r => .ok (r.ret, r.world)

/-- Successive invocations of `rx_callback`, one per delivered buffer, each on
the world the previous one left.  Returns the final world and, per invocation,
its return value and trace. -/
def run {R D : Type} (L : Liquid R D) :
    World → List (hackrf_transfer × Env) → Except Fault (World × List (Int × Trace R D))
  | w, [] => .ok (w, [])
  | w, c :: cs =>
    match rx_callback_traced L c.1 c.2 w with
    | .error f => .error f
    | .ok r =>
      match run L r.world cs with
      | .error f => .error f
      | .ok (w1, ts) => .ok (w1, (r.ret, r.trace) :: ts)

/-- The transfer that delivers the bytes `bytes`, all of them valid. -/
def transfer_of (bytes : List Int) : hackrf_transfer :=
  { buffer := bytes, valid_length := bytes.length }

/-- The stream `bytes` cut into consecutive buffers of the given sizes. -/
def split (bytes : List Int) : List Nat → List (List Int)
  | [] => []
  | k :: ks => bytes.take k :: split (bytes.drop k) ks

/-- A run time in which every allocation succeeds, slot `i` of a fresh block
holds the stale value `1 + i*I`, and `fwrite` persists everything. -/
def Env.nominal : Env :=
  { malloc_complex := true, malloc_output := true, malloc_samples := true
    garbage := fun i => (1, (i : ℚ)), fwrite_count := 1000000 }

/-- The world before the first call: empty file, nothing printed, empty heap. -/
def World.initial : World := { sink := [], stderr := [], stdout := [], live := [] }

/-- A small stand-in for the library, in exact arithmetic, to run the model on
concrete inputs.  The resampler keeps its rate and a phase accumulator: each
input adds the rate to the phase and, when the phase reaches 1, the input is
emitted and the phase drops by 1.  The demodulator keeps its modulation index
and the previous sample, and outputs the imaginary part of the product of the
sample with the conjugate of the previous one, divided by the index. -/
def Liquid.standIn : Liquid (ℚ × ℚ) (ℚ × ComplexSample) where
  resamp_crcf_create := fun r _ _ _ _ => (r, 0)
  resamp_crcf_execute := fun s x =>
    if 1 ≤ s.2 + s.1 then ((s.1, s.2 + s.1 - 1), [x]) else ((s.1, s.2 + s.1), [])
  freqdem_create := fun m => (m, (0, 0))
  freqdem_demodulate := fun d x => ((d.1, x), (x.2 * d.2.1 - x.1 * d.2.2) / d.1)

/-- The samples the resampler emits for the inputs `xs`, from state `s`, in
emission order. -/
def resamp_outputs {R D : Type} (L : Liquid R D) : R → List ComplexSample → List ComplexSample
  | _, [] => []
  | s, x :: xs => (L.resamp_crcf_execute s x).2 ++ resamp_outputs L (L.resamp_crcf_execute s x).1 xs

/-- The state of the resampler after the inputs `xs`, from state `s`. -/
def resamp_final {R D : Type} (L : Liquid R D) : R → List ComplexSample → R
  | s, [] => s
  | s, x :: xs => resamp_final L (L.resamp_crcf_execute s x).1 xs

/-- The resampler object every call creates at line 66. -/
def fresh_resampler {R D : Type} (L : Liquid R D) : R :=
  L.resamp_crcf_create r h_len bw slsl npfb

/-- The demodulator object every call creates at line 77. -/
def fresh_demod {R D : Type} (L : Liquid R D) : D := L.freqdem_create modIndex

/-- The samples the resampler emits during a call on `t`. -/
def emitted_samples {R D : Type} (L : Liquid R D) (t : hackrf_transfer) : List ComplexSample :=
  resamp_outputs L (fresh_resampler L) (complex_samples t)

/-- The content of `output_samples` when the demodulation loop reads it: the
emitted samples, then what `malloc` left in the slots never stored to. -/
def output_block {R D : Type} (L : Liquid R D) (t : hackrf_transfer) (e : Env) :
    List ComplexSample :=
  emitted_samples L t ++
    ((List.range (num_output_samples (num_samples t))).map e.garbage).drop
      (emitted_samples L t).length

/-- The deliveries of a stream cut into buffers of the given sizes, each with the
run-time conditions of its call. -/
def deliveries (bytes : List Int) (sizes : List Nat) (envs : List Env) :
    List (hackrf_transfer × Env) :=
  ((split bytes sizes).map transfer_of).zip envs

/-- A stream of fourteen IQ pairs. -/
def stream14 : List Int :=
  [64, 0, 0, 64, -64, 0, 0, -64, 64, 0, 0, 64, -64, 0, 0, -64, 64, 0, 0, 64, -64, 0, 0, -64,
    64, 0, 0, 64]

/-! ## The float constants -/

/-- The constants `r` and `bw` are 24-bit significands scaled by a power of two,
and each lies within half a unit in the last place of the fraction it rounds:
they are the `float` values of `(float)16/(float)100` and `0.45f`. -/
theorem float_constants :
    r = 10737418 / 2 ^ 26 ∧ bw = 15099494 / 2 ^ 25 ∧
    (2 ^ 23 ≤ 10737418 ∧ 10737418 < 2 ^ 24) ∧ (2 ^ 23 ≤ 15099494 ∧ 15099494 < 2 ^ 24) ∧
    |(16 : ℚ) / 100 - r| < 1 / 2 ^ 27 ∧ |(45 : ℚ) / 100 - bw| < 1 / 2 ^ 26 := by
  refine ⟨by norm_num [r], by norm_num [bw], by norm_num, by norm_num, ?_, ?_⟩
  · rw [abs_lt]
    constructor <;> norm_num [r]
  · rw [abs_lt]
    constructor <;> norm_num [bw]

/-! ## The loops -/

theorem store_block (b : List ComplexSample) (j : Nat) (out : List ComplexSample)
    (hj : j ≤ b.length) :
    store (some b) j out =
      if j + out.length ≤ b.length then
        .ok (some (b.take j ++ out ++ b.drop (j + out.length)))
      else .error .out_of_bounds := by
  cases out with
  | nil => simp [store, hj]
  | cons x xs => simp [store]

theorem store_null (j : Nat) (out : List ComplexSample) :
    store none j out = if out = [] then .ok none else .error .null_deref := by
  cases out <;> simp [store]

theorem overwrite_length (b out : List ComplexSample) (j : Nat)
    (h : j + out.length ≤ b.length) :
    (b.take j ++ out ++ b.drop (j + out.length)).length = b.length := by
  simp only [List.length_append, List.length_take, List.length_drop]
  omega

theorem overwrite_overwrite (b out out1 : List ComplexSample) (j : Nat)
    (h : j + out.length ≤ b.length) :
    (b.take j ++ out ++ b.drop (j + out.length)).take (j + out.length) ++ out1 ++
        (b.take j ++ out ++ b.drop (j + out.length)).drop (j + out.length + out1.length) =
      b.take j ++ (out ++ out1) ++ b.drop (j + (out.length + out1.length)) := by
  have hlen : (b.take j ++ out).length = j + out.length := by
    simp only [List.length_append, List.length_take]
    omega
  have h1 : (b.take j ++ out ++ b.drop (j + out.length)).take (j + out.length) =
      b.take j ++ out := by
    rw [← hlen, List.take_left]
  have h2 : (b.take j ++ out ++ b.drop (j + out.length)).drop (j + out.length + out1.length) =
      b.drop (j + (out.length + out1.length)) := by
    rw [← hlen, List.drop_append, List.drop_drop, hlen]
    congr 1
    omega
  rw [h1, h2]
  simp [List.append_assoc]

/-- The resampling loop on an allocated block: the emitted samples overwrite the
slots from `j` on, in order, and the rest of the block keeps its content; the
loop faults exactly when the emitted samples do not fit. -/
theorem resample_loop_block {R D : Type} (L : Liquid R D) (xs : List ComplexSample) :
    ∀ (s : R) (b : List ComplexSample) (j : Nat), j ≤ b.length →
      resample_loop L s xs (some b) j =
        if j + (resamp_outputs L s xs).length ≤ b.length then
          .ok (resamp_final L s xs,
            some (b.take j ++ resamp_outputs L s xs ++
              b.drop (j + (resamp_outputs L s xs).length)),
            j + (resamp_outputs L s xs).length)
        else .error .out_of_bounds := by
  induction xs with
  | nil =>
    intro s b j hj
    simp [resample_loop, resamp_outputs, resamp_final, hj]
  | cons x xs ih =>
    intro s b j hj
    simp only [resample_loop, resamp_outputs, resamp_final, List.length_append]
    rw [store_block b j _ hj]
    by_cases h : j + (L.resamp_crcf_execute s x).2.length ≤ b.length
    · simp only [h, if_true]
      rw [ih _ _ _ (by rw [overwrite_length b _ j h]; exact h)]
      rw [overwrite_length b _ j h, overwrite_overwrite b _ _ j h]
      simp only [Nat.add_assoc]
    · have h2 : ¬ j + ((L.resamp_crcf_execute s x).2.length +
          (resamp_outputs L (L.resamp_crcf_execute s x).1 xs).length) ≤ b.length := by omega
      simp [h, h2]

/-- The resampling loop through a null `output_samples`: it faults as soon as the
resampler emits a sample, and otherwise leaves the pointer null. -/
theorem resample_loop_null {R D : Type} (L : Liquid R D) (xs : List ComplexSample) :
    ∀ (s : R) (j : Nat),
      resample_loop L s xs none j =
        if resamp_outputs L s xs = [] then .ok (resamp_final L s xs, none, j)
        else .error .null_deref := by
  induction xs with
  | nil => intro s j; simp [resample_loop, resamp_outputs, resamp_final]
  | cons x xs ih =>
    intro s j
    simp only [resample_loop, resamp_outputs, resamp_final, store_null]
    by_cases h : (L.resamp_crcf_execute s x).2 = []
    · simp [h, ih]
    · simp [h]

theorem demod_loop_length {R D : Type} (L : Liquid R D) (xs : List ComplexSample) :
    ∀ d : D, (demod_loop L d xs).2.length = xs.length := by
  induction xs with
  | nil => intro d; simp [demod_loop]
  | cons x xs ih => intro d; simp [demod_loop, ih]

/-! ## The paths through `rx_callback` -/

theorem path_complex_null {R D : Type} (L : Liquid R D) (t : hackrf_transfer) (e : Env)
    (w : World) (h : e.malloc_complex = false) :
    rx_callback_traced L t e w =
      .ok { ret := -1
            world := { w with stderr := w.stderr ++ ["Memory allocation failed\n"] }
            trace := {} } := by
  simp [rx_callback_traced, h]

theorem path_success {R D : Type} (L : Liquid R D) (t : hackrf_transfer) (e : Env)
    (w : World) (h1 : e.malloc_complex = true) (h2 : e.malloc_output = true)
    (h3 : e.malloc_samples = true) :
    rx_callback_traced L t e w =
      if (emitted_samples L t).length ≤ num_output_samples (num_samples t) then
        .ok { ret := 0
              world :=
                { sink := w.sink ++
                    (demod_loop L (fresh_demod L) (output_block L t e)).2.take e.fwrite_count
                  stderr := w.stderr
                  stdout := w.stdout ++ printed (demod_loop L (fresh_demod L) (output_block L t e)).2
                  live := .audioSamples :: w.live }
              trace :=
                { complex_samples := some (complex_samples t)
                  resampler_start := some (fresh_resampler L)
                  resampler_end := some (resamp_final L (fresh_resampler L) (complex_samples t))
                  emitted := some (emitted_samples L t).length
                  demod_start := some (fresh_demod L)
                  demod_end := some (demod_loop L (fresh_demod L) (output_block L t e)).1
                  demodulated := output_block L t e
                  fwrite_request := some (demod_loop L (fresh_demod L) (output_block L t e)).2 } }
      else .error .out_of_bounds := by
  simp only [rx_callback_traced, h1, h2, h3, if_true]
  rw [resample_loop_block L _ _ _ _ (Nat.zero_le _)]
  simp only [List.length_map, List.length_range, Nat.zero_add, List.take_zero, List.nil_append]
  by_cases h : (resamp_outputs L (L.resamp_crcf_create r h_len bw slsl npfb)
      (complex_samples t)).length ≤ num_output_samples (num_samples t)
  · simp [h, emitted_samples, output_block, fresh_resampler, fresh_demod]
  · simp [h, emitted_samples, fresh_resampler]

theorem path_samples_null {R D : Type} (L : Liquid R D) (t : hackrf_transfer) (e : Env)
    (w : World) (h1 : e.malloc_complex = true) (h2 : e.malloc_output = true)
    (h3 : e.malloc_samples = false) :
    rx_callback_traced L t e w =
      if (emitted_samples L t).length ≤ num_output_samples (num_samples t) then
        .ok { ret := -1
              world :=
                { w with
                  stderr := w.stderr ++ ["Memory allocation failed for audio samples\n"]
                  live := .resampler :: .complex_samples :: w.live }
              trace :=
                { complex_samples := some (complex_samples t)
                  resampler_start := some (fresh_resampler L)
                  resampler_end := some (resamp_final L (fresh_resampler L) (complex_samples t))
                  emitted := some (emitted_samples L t).length
                  demod_start := some (fresh_demod L)
                  demod_end := some (fresh_demod L) } }
      else .error .out_of_bounds := by
  simp only [rx_callback_traced, h1, h2, h3, if_true]
  rw [resample_loop_block L _ _ _ _ (Nat.zero_le _)]
  simp only [List.length_map, List.length_range, Nat.zero_add, List.take_zero, List.nil_append]
  by_cases h : (resamp_outputs L (L.resamp_crcf_create r h_len bw slsl npfb)
      (complex_samples t)).length ≤ num_output_samples (num_samples t)
  · simp [h, emitted_samples, fresh_resampler, fresh_demod, release]
  · simp [h, emitted_samples, fresh_resampler]

theorem path_output_null {R D : Type} (L : Liquid R D) (t : hackrf_transfer) (e : Env)
    (w : World) (h1 : e.malloc_complex = true) (h2 : e.malloc_output = false)
    (h3 : e.malloc_samples = true) :
    rx_callback_traced L t e w = .error .null_deref := by
  simp only [rx_callback_traced, h1, h2, h3, Bool.false_eq_true, Bool.true_eq_false, if_false,
    if_true]
  rw [resample_loop_null]
  by_cases h : resamp_outputs L (L.resamp_crcf_create r h_len bw slsl npfb)
      (complex_samples t) = []
  · simp [h]
  · simp [h]

theorem path_output_samples_null {R D : Type} (L : Liquid R D) (t : hackrf_transfer) (e : Env)
    (w : World) (h1 : e.malloc_complex = true) (h2 : e.malloc_output = false)
    (h3 : e.malloc_samples = false) :
    rx_callback_traced L t e w =
      if emitted_samples L t = [] then
        .ok { ret := -1
              world :=
                { w with
                  stderr := w.stderr ++ ["Memory allocation failed for audio samples\n"]
                  live := .resampler :: .complex_samples :: w.live }
              trace :=
                { complex_samples := some (complex_samples t)
                  resampler_start := some (fresh_resampler L)
                  resampler_end := some (resamp_final L (fresh_resampler L) (complex_samples t))
                  emitted := some 0
                  demod_start := some (fresh_demod L)
                  demod_end := some (fresh_demod L) } }
      else .error .null_deref := by
  simp only [rx_callback_traced, h1, h2, h3, Bool.false_eq_true, Bool.true_eq_false, if_false,
    if_true]
  rw [resample_loop_null]
  by_cases h : resamp_outputs L (L.resamp_crcf_create r h_len bw slsl npfb)
      (complex_samples t) = []
  · simp [h, emitted_samples, fresh_resampler, fresh_demod, release]
  · simp [h, emitted_samples, fresh_resampler]

/-! ## Sample Converter -/

theorem num_samples_even (buffer : List Int) (N : Nat) :
    num_samples { buffer := buffer, valid_length := 2 * N } = N := by
  simp [num_samples]

theorem num_samples_odd (buffer : List Int) (N : Nat) :
    num_samples { buffer := buffer, valid_length := 2 * N + 1 } = N := by
  simp only [num_samples]
  omega

/-- C1: for a raw buffer of even valid length `2N` (within the buffer), the
conversion loop produces exactly `N` complex samples, sample `i` being
`buffer[2i]/128 + buffer[2i+1]/128 * I`; and these are the samples every call of
`rx_callback` whose first allocation succeeds holds in `complex_samples`. -/
theorem complex_samples_spec (t : hackrf_transfer) (N : Nat) (h : t.valid_length = 2 * N)
    (hb : t.valid_length ≤ t.buffer.length) :
    (complex_samples t).length = N ∧
    (∀ i, i < N → ∃ re im : Int,
      t.buffer[2 * i]? = some re ∧ t.buffer[2 * i + 1]? = some im ∧
      (complex_samples t)[i]? = some ((re : ℚ) / 128, (im : ℚ) / 128)) ∧
    ∀ {R D : Type} (L : Liquid R D) (e : Env) (w : World) (r : Return R D),
      e.malloc_complex = true → rx_callback_traced L t e w = .ok r →
      r.trace.complex_samples = some (complex_samples t) := by
  have hN : num_samples t = N := by simp [num_samples, h]
  refine ⟨by simp [complex_samples, hN], ?_, ?_⟩
  · intro i hi
    have h0 : 2 * i < t.buffer.length := by omega
    have h1 : 2 * i + 1 < t.buffer.length := by omega
    refine ⟨t.buffer[2 * i], t.buffer[2 * i + 1], ?_, ?_, ?_⟩
    · exact List.getElem?_eq_getElem h0
    · exact List.getElem?_eq_getElem h1
    · simp [complex_samples, hN, hi, List.getD_eq_getElem?_getD, List.getElem?_eq_getElem h0,
        List.getElem?_eq_getElem h1]
  · intro R D L e w r h1 hr
    cases h2 : e.malloc_output <;> cases h3 : e.malloc_samples
    · rw [path_output_samples_null L t e w h1 h2 h3] at hr
      split at hr
      · cases hr; rfl
      · cases hr
    · rw [path_output_null L t e w h1 h2 h3] at hr
      cases hr
    · rw [path_samples_null L t e w h1 h2 h3] at hr
      split at hr
      · cases hr; rfl
      · cases hr
    · rw [path_success L t e w h1 h2 h3] at hr
      split at hr
      · cases hr; rfl
      · cases hr

/-- C1, on the buffer of the end-to-end scenario. -/
theorem complex_samples_spec_witness :
    complex_samples (transfer_of [0, 0, 64, 0, 0, 64, -64, 0]) =
        [(0, 0), (1 / 2, 0), (0, 1 / 2), (-1 / 2, 0)] ∧
      (complex_samples (transfer_of [0, 0, 64, 0, 0, 64, -64, 0])).length = 4 :=
  ⟨by simp [complex_samples, num_samples, transfer_of, List.range, List.range.loop]; norm_num,
    (complex_samples_spec (transfer_of [0, 0, 64, 0, 0, 64, -64, 0]) 4 rfl (by decide)).1⟩

/-! ## Output buffer size -/

/-- C9: the block allocated for the resampler output has `floor(16 N / 100) + 5`
slots, which is at least `ceil(N * I / D) + 4` with `I = 16` and `D = 100`. -/
theorem num_output_samples_margin (N : Nat) :
    num_output_samples N = ⌊((N : ℚ) * 16) / 100⌋₊ + 5 ∧
    ⌈((N : ℚ) * interpFactor) / decFactor⌉₊ + 4 ≤ num_output_samples N := by
  have hfloor : ⌊((N : ℚ) * 16) / 100⌋₊ = N * 16 / 100 := by
    have : ((N : ℚ) * 16) / 100 = ((N * 16 : ℕ) : ℚ) / ((100 : ℕ) : ℚ) := by push_cast; ring
    rw [this, Nat.floor_div_eq_div]
  refine ⟨by simp [num_output_samples, interpFactor, decFactor, hfloor], ?_⟩
  have hc : ⌈((N : ℚ) * interpFactor) / decFactor⌉₊ ≤ N * 16 / 100 + 1 := by
    rw [Nat.ceil_le]
    have h1 : N * 16 < 100 * (N * 16 / 100 + 1) := Nat.lt_mul_div_succ _ (by norm_num)
    have h2 : ((N * 16 : ℕ) : ℚ) < ((100 * (N * 16 / 100 + 1) : ℕ) : ℚ) := by exact_mod_cast h1
    simp only [interpFactor, decFactor]
    push_cast at h2 ⊢
    rw [div_le_iff₀ (by norm_num)]
    linarith
  have hn : num_output_samples N = N * 16 / 100 + 5 := rfl
  omega

/-! ## Every returning call -/

/-- A call that returns took one of three paths: the early return of line 40,
the return of line 84, or the return of line 99. -/
theorem returned_cases {R D : Type} (L : Liquid R D) (t : hackrf_transfer) (e : Env)
    (w : World) (r : Return R D) (h : rx_callback_traced L t e w = .ok r) :
    (e.malloc_complex = false ∧ r.ret = -1 ∧ r.trace = {} ∧
      r.world = { w with stderr := w.stderr ++ ["Memory allocation failed\n"] }) ∨
    (e.malloc_complex = true ∧ e.malloc_samples = false ∧ r.ret = -1 ∧
      r.world = { w with
        stderr := w.stderr ++ ["Memory allocation failed for audio samples\n"]
        live := .resampler :: .complex_samples :: w.live } ∧
      r.trace =
        { complex_samples := some (complex_samples t)
          resampler_start := some (fresh_resampler L)
          resampler_end := some (resamp_final L (fresh_resampler L) (complex_samples t))
          emitted := some (emitted_samples L t).length
          demod_start := some (fresh_demod L)
          demod_end := some (fresh_demod L) }) ∨
    (e.malloc_complex = true ∧ e.malloc_output = true ∧ e.malloc_samples = true ∧
      (emitted_samples L t).length ≤ num_output_samples (num_samples t) ∧ r.ret = 0 ∧
      r.world =
        { sink := w.sink ++
            (demod_loop L (fresh_demod L) (output_block L t e)).2.take e.fwrite_count
          stderr := w.stderr
          stdout := w.stdout ++ printed (demod_loop L (fresh_demod L) (output_block L t e)).2
          live := .audioSamples :: w.live } ∧
      r.trace =
        { complex_samples := some (complex_samples t)
          resampler_start := some (fresh_resampler L)
          resampler_end := some (resamp_final L (fresh_resampler L) (complex_samples t))
          emitted := some (emitted_samples L t).length
          demod_start := some (fresh_demod L)
          demod_end := some (demod_loop L (fresh_demod L) (output_block L t e)).1
          demodulated := output_block L t e
          fwrite_request := some (demod_loop L (fresh_demod L) (output_block L t e)).2 }) := by
  cases h1 : e.malloc_complex
  · rw [path_complex_null L t e w h1] at h
    cases h
    exact Or.inl ⟨rfl, rfl, rfl, rfl⟩
  · cases h2 : e.malloc_output <;> cases h3 : e.malloc_samples
    · rw [path_output_samples_null L t e w h1 h2 h3] at h
      split at h
      · rename_i hnil
        cases h
        exact Or.inr (Or.inl ⟨rfl, rfl, rfl, rfl, by simp [hnil]⟩)
      · cases h
    · rw [path_output_null L t e w h1 h2 h3] at h
      cases h
    · rw [path_samples_null L t e w h1 h2 h3] at h
      split at h
      · cases h
        exact Or.inr (Or.inl ⟨rfl, rfl, rfl, rfl, rfl⟩)
      · cases h
    · rw [path_success L t e w h1 h2 h3] at h
      split at h
      · rename_i hfit
        cases h
        exact Or.inr (Or.inr ⟨rfl, rfl, rfl, hfit, rfl, rfl, rfl⟩)
      · cases h

/-- Whether a call returns, its return value, its trace and what it appends to
the sink and prints do not depend on the world it starts from. -/
theorem returned_any_world {R D : Type} (L : Liquid R D) (t : hackrf_transfer) (e : Env)
    (w : World) (r : Return R D) (h : rx_callback_traced L t e w = .ok r) (w0 : World) :
    ∃ (r0 : Return R D) (out : List AudioSample),
      rx_callback_traced L t e w0 = .ok r0 ∧ r0.ret = r.ret ∧ r0.trace = r.trace ∧
      r.world.sink = w.sink ++ out ∧ r0.world.sink = w0.sink ++ out := by
  rcases returned_cases L t e w r h with ⟨h1, hr, ht, hw⟩ | ⟨h1, h3, hr, hw, ht⟩ |
    ⟨h1, h2, h3, hfit, hr, hw, ht⟩
  · refine ⟨_, [], path_complex_null L t e w0 h1, ?_, ?_, ?_, ?_⟩
    · simp [hr]
    · simp [ht]
    · simp [hw]
    · simp
  · cases h2 : e.malloc_output
    · rw [path_output_samples_null L t e w h1 h2 h3] at h
      by_cases hnil : emitted_samples L t = []
      · have h0 := path_output_samples_null L t e w0 h1 h2 h3
        rw [if_pos hnil] at h0
        refine ⟨_, [], h0, ?_, ?_, ?_, ?_⟩
        · simp [hr]
        · simp [ht, hnil]
        · simp [hw]
        · simp
      · rw [if_neg hnil] at h
        cases h
    · rw [path_samples_null L t e w h1 h2 h3] at h
      by_cases hfit : (emitted_samples L t).length ≤ num_output_samples (num_samples t)
      · have h0 := path_samples_null L t e w0 h1 h2 h3
        rw [if_pos hfit] at h0
        refine ⟨_, [], h0, ?_, ?_, ?_, ?_⟩
        · simp [hr]
        · simp [ht]
        · simp [hw]
        · simp
      · rw [if_neg hfit] at h
        cases h
  · have h0 := path_success L t e w0 h1 h2 h3
    rw [if_pos hfit] at h0
    refine ⟨_, (demod_loop L (fresh_demod L) (output_block L t e)).2.take e.fwrite_count, h0,
      ?_, ?_, ?_, ?_⟩
    · simp [hr]
    · simp [ht]
    · rw [hw]
    · rfl

/-! ## Odd valid length -/

/-- C2, as the code has it: on a buffer of odd valid length `2N+1` the callback
raises no input-format error; it ignores the last byte and does exactly what it
does on the same buffer with valid length `2N`. -/
theorem odd_length_truncated {R D : Type} (L : Liquid R D) (buffer : List Int) (N : Nat)
    (e : Env) (w : World) :
    num_samples { buffer := buffer, valid_length := 2 * N + 1 } = N ∧
    rx_callback_traced L { buffer := buffer, valid_length := 2 * N + 1 } e w =
      rx_callback_traced L { buffer := buffer, valid_length := 2 * N } e w ∧
    rx_callback L { buffer := buffer, valid_length := 2 * N + 1 } e w =
      rx_callback L { buffer := buffer, valid_length := 2 * N } e w := by
  have h : rx_callback_traced L { buffer := buffer, valid_length := 2 * N + 1 } e w =
      rx_callback_traced L { buffer := buffer, valid_length := 2 * N } e w := by
    simp only [rx_callback_traced, complex_samples, num_samples_odd, num_samples_even]
  exact ⟨num_samples_odd buffer N, h, by simp only [rx_callback, h]⟩

/-- C2 fails as stated: the 3-byte buffer `[64, 0, 32]` is accepted; the call
returns 0, converts the pair `(64, 0)`, logs nothing and writes five samples. -/
theorem odd_length_accepted :
    rx_callback Liquid.standIn { buffer := [64, 0, 32], valid_length := 3 } Env.nominal
        World.initial =
      .ok (0,
        { sink := [0, 1 / 5, 1 / 5, 1 / 5, 1 / 5]
          stderr := []
          stdout := [(0, 0), (1, 1 / 5), (2, 1 / 5), (3, 1 / 5), (4, 1 / 5)]
          live := [.audioSamples] }) ∧
    complex_samples { buffer := [64, 0, 32], valid_length := 3 } = [(1 / 2, 0)] := by
  constructor
  · with_unfolding_all rfl
  · with_unfolding_all rfl

/-! ## How many samples are demodulated and written -/

/-- C3, on the code: on an empty buffer, with every allocation granted, the call
returns 0 and converts and emits no sample, yet it demodulates the five slots of
`output_samples` as `malloc` left them and passes five samples to `fwrite`. -/
theorem empty_buffer_writes_margin {R D : Type} (L : Liquid R D) (buffer : List Int) (e : Env)
    (w : World) (h1 : e.malloc_complex = true) (h2 : e.malloc_output = true)
    (h3 : e.malloc_samples = true) :
    ∃ r : Return R D,
      rx_callback_traced L { buffer := buffer, valid_length := 0 } e w = .ok r ∧ r.ret = 0 ∧
      r.trace.complex_samples = some [] ∧ r.trace.emitted = some 0 ∧
      r.trace.demodulated =
        [e.garbage 0, e.garbage 1, e.garbage 2, e.garbage 3, e.garbage 4] ∧
      ∃ a : List AudioSample, r.trace.fwrite_request = some a ∧ a.length = 5 ∧
        r.world.sink = w.sink ++ a.take e.fwrite_count := by
  have hc : complex_samples { buffer := buffer, valid_length := 0 } = [] := by
    simp [complex_samples, num_samples]
  have he : emitted_samples L { buffer := buffer, valid_length := 0 } = [] := by
    simp [emitted_samples, hc, resamp_outputs]
  have hn : num_output_samples (num_samples { buffer := buffer, valid_length := 0 }) = 5 := by
    simp [num_samples, num_output_samples]
  have hb : output_block L { buffer := buffer, valid_length := 0 } e =
      [e.garbage 0, e.garbage 1, e.garbage 2, e.garbage 3, e.garbage 4] := by
    rw [output_block, he, hn]
    rfl
  have h0 := path_success L { buffer := buffer, valid_length := 0 } e w h1 h2 h3
  rw [if_pos (by simp [he])] at h0
  refine ⟨_, h0, rfl, ?_, ?_, ?_, _, rfl, ?_, rfl⟩
  · simp [hc]
  · simp [he]
  · simp [hb]
  · simp [demod_loop_length, hb]

/-- C3, evaluated with the stand-in library: the empty buffer puts five samples
into an empty file. -/
theorem empty_buffer_writes_margin_witness :
    (∃ r : Return (ℚ × ℚ) (ℚ × ComplexSample),
      rx_callback_traced Liquid.standIn { buffer := [], valid_length := 0 } Env.nominal
        World.initial = .ok r ∧ r.ret = 0 ∧
      r.trace.complex_samples = some [] ∧ r.trace.emitted = some 0 ∧
      r.trace.demodulated =
        [Env.nominal.garbage 0, Env.nominal.garbage 1, Env.nominal.garbage 2,
          Env.nominal.garbage 3, Env.nominal.garbage 4] ∧
      ∃ a : List AudioSample, r.trace.fwrite_request = some a ∧ a.length = 5 ∧
        r.world.sink = World.initial.sink ++ a.take Env.nominal.fwrite_count) ∧
    rx_callback Liquid.standIn { buffer := [], valid_length := 0 } Env.nominal World.initial =
      .ok (0,
        { sink := [0, 1 / 5, 1 / 5, 1 / 5, 1 / 5]
          stderr := []
          stdout := [(0, 0), (1, 1 / 5), (2, 1 / 5), (3, 1 / 5), (4, 1 / 5)]
          live := [.audioSamples] }) :=
  ⟨empty_buffer_writes_margin Liquid.standIn [] Env.nominal World.initial rfl rfl rfl,
    by with_unfolding_all rfl⟩

/-- C5, on the code: a call that returns 0 tracks the emitted count `j` but does
not use it.  It demodulates every slot of `output_samples`, that is the emitted
samples in emission order followed by the slots never stored to, and passes
`floor(16 N / 100) + 5` samples to the demodulator and to `fwrite`, whatever the
count the resampler emitted. -/
theorem demodulates_every_slot {R D : Type} (L : Liquid R D) (t : hackrf_transfer) (e : Env)
    (w : World) (r : Return R D) (h : rx_callback_traced L t e w = .ok r) (h0 : r.ret = 0) :
    r.trace.emitted = some (resamp_outputs L (fresh_resampler L) (complex_samples t)).length ∧
    r.trace.demodulated =
      resamp_outputs L (fresh_resampler L) (complex_samples t) ++
        ((List.range (num_output_samples (num_samples t))).map e.garbage).drop
          (resamp_outputs L (fresh_resampler L) (complex_samples t)).length ∧
    r.trace.demodulated.length = num_samples t * 16 / 100 + 5 ∧
    ∃ a : List AudioSample, r.trace.fwrite_request = some a ∧
      a.length = num_samples t * 16 / 100 + 5 := by
  rcases returned_cases L t e w r h with ⟨_, hr, _, _⟩ | ⟨_, _, hr, _, _⟩ |
    ⟨_, _, _, hfit, _, _, ht⟩
  · rw [hr] at h0; cases h0
  · rw [hr] at h0; cases h0
  · have hlen : (output_block L t e).length = num_samples t * 16 / 100 + 5 := by
      have hn : num_output_samples (num_samples t) = num_samples t * 16 / 100 + 5 := rfl
      simp only [output_block, List.length_append, List.length_drop, List.length_map,
        List.length_range]
      omega
    refine ⟨by rw [ht]; rfl, by rw [ht]; rfl, by rw [ht]; exact hlen, _, by rw [ht], ?_⟩
    rw [demod_loop_length, hlen]

/-- C5, evaluated with the stand-in library on the eight bytes of the end-to-end
scenario: the call returns 0, no sample is emitted, and five samples are
demodulated and written. -/
theorem demodulates_every_slot_witness :
    ∃ r : Return (ℚ × ℚ) (ℚ × ComplexSample),
      rx_callback_traced Liquid.standIn (transfer_of [0, 0, 64, 0, 0, 64, -64, 0]) Env.nominal
        World.initial = .ok r ∧
      r.ret = 0 ∧ r.trace.emitted = some 0 ∧ r.world.sink = [0, 1 / 5, 1 / 5, 1 / 5, 1 / 5] ∧
      r.trace.demodulated.length = 5 := by
  have h := path_success Liquid.standIn (transfer_of [0, 0, 64, 0, 0, 64, -64, 0]) Env.nominal
    World.initial rfl rfl rfl
  rw [if_pos (by decide!)] at h
  refine ⟨_, h, rfl, ?_, ?_, ?_⟩
  · with_unfolding_all rfl
  · with_unfolding_all rfl
  · exact (demodulates_every_slot Liquid.standIn (transfer_of [0, 0, 64, 0, 0, 64, -64, 0])
      Env.nominal World.initial _ h rfl).2.2.1

/-! ## Allocation failures and the heap -/

/-- C7, on the code: the result of the `malloc` of `output_samples` is never
tested.  When that allocation fails while the other two succeed, the call does
not return -1 and logs nothing: it dereferences the null pointer. -/
theorem output_samples_null_unchecked {R D : Type} (L : Liquid R D) (t : hackrf_transfer)
    (e : Env) (w : World) (h1 : e.malloc_complex = true) (h2 : e.malloc_output = false)
    (h3 : e.malloc_samples = true) :
    rx_callback_traced L t e w = .error .null_deref ∧
    rx_callback L t e w = .error .null_deref := by
  have h := path_output_null L t e w h1 h2 h3
  exact ⟨h, by simp only [rx_callback, h]⟩

/-- C7, evaluated with the stand-in library on the empty buffer. -/
theorem output_samples_null_unchecked_witness :
    rx_callback_traced Liquid.standIn (transfer_of [])
        { Env.nominal with malloc_output := false } World.initial = .error .null_deref ∧
      rx_callback Liquid.standIn (transfer_of [])
        { Env.nominal with malloc_output := false } World.initial = .error .null_deref :=
  output_samples_null_unchecked Liquid.standIn (transfer_of [])
    { Env.nominal with malloc_output := false } World.initial rfl rfl rfl

/-- The two allocations whose result is tested: when `complex_samples` or
`audioSamples` cannot be allocated, a returning call returns -1, logs one
diagnostic and leaves the sink as it was. -/
theorem tested_allocations {R D : Type} (L : Liquid R D) (t : hackrf_transfer) (e : Env)
    (w : World) (r : Return R D) (h : rx_callback_traced L t e w = .ok r)
    (hf : e.malloc_complex = false ∨ e.malloc_samples = false) :
    r.ret = -1 ∧ r.world.sink = w.sink ∧ ∃ msg, r.world.stderr = w.stderr ++ [msg] := by
  rcases returned_cases L t e w r h with ⟨_, hr, _, hw⟩ | ⟨_, _, hr, hw, _⟩ |
    ⟨h1, _, h3, _, _, _, _⟩
  · exact ⟨hr, by rw [hw], _, by rw [hw]⟩
  · exact ⟨hr, by rw [hw], _, by rw [hw]⟩
  · rcases hf with hf | hf
    · rw [h1] at hf; cases hf
    · rw [h3] at hf; cases hf

/-- C8, on the code: what a returning call leaves on the heap.  The return of
line 99 leaves `audioSamples` allocated, the return of line 84 leaves
`complex_samples` and the resampler allocated; only the return of line 40
leaves the heap as it found it. -/
theorem live_after_return {R D : Type} (L : Liquid R D) (t : hackrf_transfer) (e : Env)
    (w : World) (r : Return R D) (h : rx_callback_traced L t e w = .ok r) :
    (r.ret = 0 → r.world.live = .audioSamples :: w.live) ∧
    (r.ret ≠ 0 → e.malloc_complex = true →
      r.world.live = .resampler :: .complex_samples :: w.live) ∧
    (e.malloc_complex = false → r.world.live = w.live) := by
  rcases returned_cases L t e w r h with ⟨h1, hr, _, hw⟩ | ⟨h1, _, hr, hw, _⟩ |
    ⟨h1, _, _, _, hr, hw, _⟩
  · refine ⟨fun h0 => ?_, fun _ hc => ?_, fun _ => by rw [hw]⟩
    · rw [hr] at h0; cases h0
    · rw [h1] at hc; cases hc
  · refine ⟨fun h0 => ?_, fun _ _ => by rw [hw], fun hc => ?_⟩
    · rw [hr] at h0; cases h0
    · rw [h1] at hc; cases hc
  · refine ⟨fun _ => by rw [hw], fun hne => absurd hr hne, fun hc => ?_⟩
    rw [h1] at hc; cases hc

/-- C8, evaluated with the stand-in library: after a successful call on the
empty buffer, from an empty heap, the block `audioSamples` is still allocated. -/
theorem live_after_return_witness :
    ∃ r : Return (ℚ × ℚ) (ℚ × ComplexSample),
      rx_callback_traced Liquid.standIn (transfer_of []) Env.nominal World.initial = .ok r ∧
      r.ret = 0 ∧ r.world.live = .audioSamples :: World.initial.live ∧
      r.world.live ≠ World.initial.live := by
  have h := path_success Liquid.standIn (transfer_of []) Env.nominal World.initial rfl rfl rfl
  rw [if_pos (by decide!)] at h
  exact ⟨_, h, rfl,
    (live_after_return Liquid.standIn (transfer_of []) Env.nominal World.initial _ h).1 rfl,
    by simp [World.initial]⟩

/-! ## Sink write failures -/

/-- C10, as the code has it: the result of `fwrite` is discarded.  When fewer
samples are persisted than requested, the call still returns 0 and logs
nothing, the sink receives the persisted prefix, and the return value, the
diagnostics and every traced state are those of the same call with a complete
write. -/
theorem short_write_unreported {R D : Type} (L : Liquid R D) (t : hackrf_transfer) (e : Env)
    (w : World) (r : Return R D) (a : List AudioSample)
    (h : rx_callback_traced L t e w = .ok r) (ha : r.trace.fwrite_request = some a)
    (hshort : e.fwrite_count < a.length) :
    r.ret = 0 ∧ r.world.stderr = w.stderr ∧ r.world.sink = w.sink ++ a.take e.fwrite_count ∧
    ∃ r0 : Return R D,
      rx_callback_traced L t { e with fwrite_count := a.length } w = .ok r0 ∧
      r0.world.sink = w.sink ++ a ∧ r0.ret = r.ret ∧ r0.world.stderr = r.world.stderr ∧
      r0.trace = r.trace := by
  rcases returned_cases L t e w r h with ⟨_, _, ht, _⟩ | ⟨_, _, _, _, ht⟩ |
    ⟨h1, h2, h3, hfit, hr, hw, ht⟩
  · rw [ht] at ha; cases ha
  · rw [ht] at ha; cases ha
  · rw [ht] at ha
    cases ha
    have h0 := path_success L t { e with fwrite_count :=
      (demod_loop L (fresh_demod L) (output_block L t e)).2.length } w h1 h2 h3
    rw [if_pos hfit] at h0
    refine ⟨hr, by rw [hw], by rw [hw], _, h0, ?_, ?_, ?_, ?_⟩
    · simp [output_block]
    · rw [hr]
    · rw [hw]
    · rw [ht]
      rfl

/-- C10 fails as stated: with the stand-in library, a call whose `fwrite`
persists two of the five samples requested returns 0 and prints nothing on
`stderr`. -/
theorem short_write_silent :
    rx_callback Liquid.standIn (transfer_of [0, 0, 64, 0, 0, 64, -64, 0])
        { Env.nominal with fwrite_count := 2 } World.initial =
      .ok (0,
        { sink := [0, 1 / 5]
          stderr := []
          stdout := [(0, 0), (1, 1 / 5), (2, 1 / 5), (3, 1 / 5), (4, 1 / 5)]
          live := [.audioSamples] }) := by
  with_unfolding_all rfl

/-- C10, evaluated at the same short write. -/
theorem short_write_unreported_witness :
    ∃ r : Return (ℚ × ℚ) (ℚ × ComplexSample),
      rx_callback_traced Liquid.standIn (transfer_of [0, 0, 64, 0, 0, 64, -64, 0])
        { Env.nominal with fwrite_count := 2 } World.initial = .ok r ∧
      r.trace.fwrite_request = some [0, 1 / 5, 1 / 5, 1 / 5, 1 / 5] ∧
      r.ret = 0 ∧ r.world.stderr = World.initial.stderr := by
  have h := path_success Liquid.standIn (transfer_of [0, 0, 64, 0, 0, 64, -64, 0])
    { Env.nominal with fwrite_count := 2 } World.initial rfl rfl rfl
  rw [if_pos (by decide!)] at h
  have ha : (demod_loop Liquid.standIn (fresh_demod Liquid.standIn)
      (output_block Liquid.standIn (transfer_of [0, 0, 64, 0, 0, 64, -64, 0])
        { Env.nominal with fwrite_count := 2 })).2 = [0, 1 / 5, 1 / 5, 1 / 5, 1 / 5] := by
    with_unfolding_all rfl
  have hthm := short_write_unreported Liquid.standIn
    (transfer_of [0, 0, 64, 0, 0, 64, -64, 0]) { Env.nominal with fwrite_count := 2 }
    World.initial _ [0, 1 / 5, 1 / 5, 1 / 5, 1 / 5] h (congrArg some ha) (by decide)
  exact ⟨_, h, congrArg some ha, hthm.1, hthm.2.1⟩

/-! ## Successive invocations -/

theorem run_cons_ok {R D : Type} (L : Liquid R D) (w : World) (c : hackrf_transfer × Env)
    (cs : List (hackrf_transfer × Env)) (w1 : World) (ts : List (Int × Trace R D))
    (h : run L w (c :: cs) = .ok (w1, ts)) :
    ∃ (r : Return R D) (ts0 : List (Int × Trace R D)),
      rx_callback_traced L c.1 c.2 w = .ok r ∧ run L r.world cs = .ok (w1, ts0) ∧
      ts = (r.ret, r.trace) :: ts0 := by
  simp only [run] at h
  cases hr : rx_callback_traced L c.1 c.2 w with
  | error f => rw [hr] at h; cases h
  | ok r =>
    rw [hr] at h
    simp only at h
    cases hrest : run L r.world cs with
    | error f => rw [hrest] at h; cases h
    | ok p =>
      rw [hrest] at h
      obtain ⟨w2, ts0⟩ := p
      simp only [Except.ok.injEq, Prod.mk.injEq] at h
      exact ⟨r, ts0, rfl, by rw [← h.1]; exact hrest, h.2.symm⟩

theorem run_cons_of_ok {R D : Type} (L : Liquid R D) (w : World) (c : hackrf_transfer × Env)
    (cs : List (hackrf_transfer × Env)) (r : Return R D) (w1 : World)
    (ts : List (Int × Trace R D)) (h : rx_callback_traced L c.1 c.2 w = .ok r)
    (hrest : run L r.world cs = .ok (w1, ts)) :
    run L w (c :: cs) = .ok (w1, (r.ret, r.trace) :: ts) := by
  simp only [run, h, hrest]

/-- C6, as the code has it: in every completed sequence of invocations, each
invocation whose first allocation succeeds creates its own resampler, in the
state `resamp_crcf_create(r, h_len, bw, slsl, npfb)`, and its own demodulator,
in the state `freqdem_create(modIndex)`, and starts from them whatever state
the previous invocation ended with; an invocation that returns at line 40
creates neither.  No state passes from one invocation to the next. -/
theorem every_call_creates_state {R D : Type} (L : Liquid R D)
    (cs : List (hackrf_transfer × Env)) (w w1 : World) (ts : List (Int × Trace R D))
    (h : run L w cs = .ok (w1, ts)) :
    ts.length = cs.length ∧
    ∀ p ∈ cs.zip ts,
      (p.1.2.malloc_complex = true →
        p.2.2.resampler_start = some (L.resamp_crcf_create r h_len bw slsl npfb) ∧
        p.2.2.demod_start = some (L.freqdem_create modIndex)) ∧
      (p.1.2.malloc_complex = false →
        p.2.2.resampler_start = none ∧ p.2.2.demod_start = none) := by
  induction cs generalizing w ts with
  | nil =>
    simp only [run, Except.ok.injEq, Prod.mk.injEq] at h
    rw [← h.2]
    exact ⟨rfl, fun p hp => by simp at hp⟩
  | cons c0 cs ih =>
    obtain ⟨r0, ts0, hr, hrest, hts⟩ := run_cons_ok L w c0 cs w1 ts h
    obtain ⟨hlen, hall⟩ := ih r0.world ts0 hrest
    rw [hts]
    refine ⟨by simp [hlen], fun p hp => ?_⟩
    rw [List.zip_cons_cons] at hp
    rcases List.mem_cons.mp hp with hp | hp
    · subst hp
      rcases returned_cases L c0.1 c0.2 w r0 hr with ⟨h1, _, ht, _⟩ | ⟨h1, _, _, _, ht⟩ |
        ⟨h1, _, _, _, _, _, ht⟩
      · refine ⟨fun hc => ?_, fun _ => ?_⟩
        · rw [h1] at hc; cases hc
        · simp [ht, fresh_resampler, fresh_demod]
      · refine ⟨fun _ => ?_, fun hc => ?_⟩
        · simp [ht, fresh_resampler, fresh_demod]
        · rw [h1] at hc; cases hc
      · refine ⟨fun _ => ?_, fun hc => ?_⟩
        · simp [ht, fresh_resampler, fresh_demod]
        · rw [h1] at hc; cases hc
    · exact hall p hp

/-- Two invocations on the eight bytes of the end-to-end scenario, with the
stand-in library: the states each starts from and ends with.  The stand-in
resampler adds the rate `r` to its phase on each of the four inputs. -/
theorem standIn_two_calls :
    ∃ (w1 : World) (c1 c2 : Int × Trace (ℚ × ℚ) (ℚ × ComplexSample)),
      run Liquid.standIn World.initial
        [(transfer_of [0, 0, 64, 0, 0, 64, -64, 0], Env.nominal),
          (transfer_of [0, 0, 64, 0, 0, 64, -64, 0], Env.nominal)] = .ok (w1, [c1, c2]) ∧
      c1.2.resampler_end = some (r, 4 * r) ∧ c2.2.resampler_start = some (r, 0) ∧
      c1.2.demod_end = some (modIndex, (1, 4)) ∧ c2.2.demod_start = some (modIndex, (0, 0)) := by
  have h1 := path_success Liquid.standIn (transfer_of [0, 0, 64, 0, 0, 64, -64, 0]) Env.nominal
    World.initial rfl rfl rfl
  rw [if_pos (by decide!)] at h1
  have h2 := path_success Liquid.standIn (transfer_of [0, 0, 64, 0, 0, 64, -64, 0]) Env.nominal
    { sink := World.initial.sink ++
        (demod_loop Liquid.standIn (fresh_demod Liquid.standIn)
          (output_block Liquid.standIn (transfer_of [0, 0, 64, 0, 0, 64, -64, 0])
            Env.nominal)).2.take Env.nominal.fwrite_count
      stderr := World.initial.stderr
      stdout := World.initial.stdout ++
        printed (demod_loop Liquid.standIn (fresh_demod Liquid.standIn)
          (output_block Liquid.standIn (transfer_of [0, 0, 64, 0, 0, 64, -64, 0])
            Env.nominal)).2
      live := .audioSamples :: World.initial.live } rfl rfl rfl
  rw [if_pos (by decide!)] at h2
  have he : (some (resamp_final Liquid.standIn (fresh_resampler Liquid.standIn)
      (complex_samples (transfer_of [0, 0, 64, 0, 0, 64, -64, 0]))) : Option (ℚ × ℚ)) =
      some (r, 4 * r) := by
    with_unfolding_all rfl
  have hs : (some (fresh_resampler Liquid.standIn) : Option (ℚ × ℚ)) = some (r, 0) := by
    with_unfolding_all rfl
  have hd : (some (demod_loop Liquid.standIn (fresh_demod Liquid.standIn)
      (output_block Liquid.standIn (transfer_of [0, 0, 64, 0, 0, 64, -64, 0])
        Env.nominal)).1 : Option (ℚ × ComplexSample)) = some (modIndex, (1, 4)) := by
    with_unfolding_all rfl
  have hd0 : (some (fresh_demod Liquid.standIn) : Option (ℚ × ComplexSample)) =
      some (modIndex, (0, 0)) := by
    with_unfolding_all rfl
  exact ⟨_, _, _, run_cons_of_ok _ _ _ _ _ _ _ h1 (run_cons_of_ok _ _ _ _ _ _ _ h2 rfl),
    he, hs, hd, hd0⟩

/-- C6 fails as stated: with the stand-in library, of two invocations on the
eight bytes of the end-to-end scenario the first ends with resampler phase
`4 * r` (four inputs at rate `r`) and demodulator history `1 + 4i`, and the
second starts with phase 0 and history 0. -/
theorem state_recreated :
    ∃ (w1 : World) (c1 c2 : Int × Trace (ℚ × ℚ) (ℚ × ComplexSample)),
      run Liquid.standIn World.initial
        [(transfer_of [0, 0, 64, 0, 0, 64, -64, 0], Env.nominal),
          (transfer_of [0, 0, 64, 0, 0, 64, -64, 0], Env.nominal)] = .ok (w1, [c1, c2]) ∧
      c1.2.resampler_end = some (r, 4 * r) ∧ c2.2.resampler_start = some (r, 0) ∧
      c1.2.demod_end = some (modIndex, (1, 4)) ∧ c2.2.demod_start = some (modIndex, (0, 0)) ∧
      c2.2.resampler_start ≠ c1.2.resampler_end ∧ c2.2.demod_start ≠ c1.2.demod_end := by
  obtain ⟨w1, c1, c2, h, he, hs, hd, hd0⟩ := standIn_two_calls
  refine ⟨w1, c1, c2, h, he, hs, hd, hd0, ?_, ?_⟩
  · rw [hs, he]
    decide!
  · rw [hd0, hd]
    decide!

/-- C6, evaluated on the two invocations above: each creates both objects and
starts from them. -/
theorem every_call_creates_state_witness :
    ∃ (w1 : World) (c1 c2 : Int × Trace (ℚ × ℚ) (ℚ × ComplexSample)),
      run Liquid.standIn World.initial
        [(transfer_of [0, 0, 64, 0, 0, 64, -64, 0], Env.nominal),
          (transfer_of [0, 0, 64, 0, 0, 64, -64, 0], Env.nominal)] = .ok (w1, [c1, c2]) ∧
      (c1.2.resampler_start = some (Liquid.standIn.resamp_crcf_create r h_len bw slsl npfb) ∧
        c1.2.demod_start = some (Liquid.standIn.freqdem_create modIndex)) ∧
      (c2.2.resampler_start = some (Liquid.standIn.resamp_crcf_create r h_len bw slsl npfb) ∧
        c2.2.demod_start = some (Liquid.standIn.freqdem_create modIndex)) := by
  obtain ⟨w1, c1, c2, h, _⟩ := standIn_two_calls
  have hall := (every_call_creates_state Liquid.standIn _ _ _ _ h).2
  exact ⟨w1, c1, c2, h,
    (hall ((transfer_of [0, 0, 64, 0, 0, 64, -64, 0], Env.nominal), c1) (by simp)).1 rfl,
    (hall ((transfer_of [0, 0, 64, 0, 0, 64, -64, 0], Env.nominal), c2) (by simp)).1 rfl⟩

/-- What the first invocation of a completed run appends to the sink is what
the same invocation appends to an empty file; the rest of the run goes on from
there. -/
theorem run_first_call {R D : Type} (L : Liquid R D) (w w1 : World)
    (c : hackrf_transfer × Env) (cs : List (hackrf_transfer × Env))
    (ts : List (Int × Trace R D)) (h : run L w (c :: cs) = .ok (w1, ts)) :
    ∃ (r0 : Return R D) (w0 : World) (ts0 : List (Int × Trace R D)),
      rx_callback_traced L c.1 c.2 World.initial = .ok r0 ∧ run L w0 cs = .ok (w1, ts0) ∧
      w0.sink = w.sink ++ r0.world.sink := by
  obtain ⟨r, ts0, hr, hrest, _⟩ := run_cons_ok L w c cs w1 ts h
  obtain ⟨r0, out, h0, _, _, hsink, hsink0⟩ := returned_any_world L c.1 c.2 w r hr World.initial
  refine ⟨r0, r.world, ts0, h0, hrest, ?_⟩
  rw [hsink, hsink0]
  simp [World.initial]

/-- C4, as the code has it: every invocation works on its own buffer from
objects it creates.  When the runs on the stream cut into `[a, b, c]` and into
`[a+b, c]` both complete, the first appends to the sink what three separate
invocations, one per buffer, each append to an empty file, and the second what
two separate invocations do; the two outputs end with the same samples, those
of the last buffer, of size `c`. -/
theorem split_runs_per_buffer {R D : Type} (L : Liquid R D) (bytes : List Int)
    (a b c : Nat) (e1 e2 e12 e3 : Env) (w w1 w2 : World)
    (ts1 ts2 : List (Int × Trace R D))
    (h1 : run L w (deliveries bytes [a, b, c] [e1, e2, e3]) = .ok (w1, ts1))
    (h2 : run L w (deliveries bytes [a + b, c] [e12, e3]) = .ok (w2, ts2)) :
    ∃ ra rb rab rc : Return R D,
      rx_callback_traced L (transfer_of (bytes.take a)) e1 World.initial = .ok ra ∧
      rx_callback_traced L (transfer_of ((bytes.drop a).take b)) e2 World.initial = .ok rb ∧
      rx_callback_traced L (transfer_of (bytes.take (a + b))) e12 World.initial = .ok rab ∧
      rx_callback_traced L (transfer_of ((bytes.drop (a + b)).take c)) e3 World.initial =
        .ok rc ∧
      w1.sink = w.sink ++ ra.world.sink ++ rb.world.sink ++ rc.world.sink ∧
      w2.sink = w.sink ++ rab.world.sink ++ rc.world.sink := by
  have hd : (bytes.drop a).drop b = bytes.drop (a + b) := by
    rw [List.drop_drop, Nat.add_comm]
  have e1x : deliveries bytes [a, b, c] [e1, e2, e3] =
      [(transfer_of (bytes.take a), e1), (transfer_of ((bytes.drop a).take b), e2),
        (transfer_of ((bytes.drop (a + b)).take c), e3)] := by
    simp [deliveries, split, hd]
  have e2x : deliveries bytes [a + b, c] [e12, e3] =
      [(transfer_of (bytes.take (a + b)), e12),
        (transfer_of ((bytes.drop (a + b)).take c), e3)] := by
    simp [deliveries, split]
  rw [e1x] at h1
  rw [e2x] at h2
  obtain ⟨ra, wa, tsa, hra, hresta, hwa⟩ := run_first_call L w w1 _ _ ts1 h1
  obtain ⟨rb, wb, tsb, hrb, hrestb, hwb⟩ := run_first_call L wa w1 _ _ tsa hresta
  obtain ⟨rc, wc, tsc, hrc, hrestc, hwc⟩ := run_first_call L wb w1 _ _ tsb hrestb
  obtain ⟨rab, wab, tsab, hrab, hrestab, hwab⟩ := run_first_call L w w2 _ _ ts2 h2
  obtain ⟨rc2, wc2, tsc2, hrc2, hrestc2, hwc2⟩ := run_first_call L wab w2 _ _ tsab hrestab
  simp only [run, Except.ok.injEq, Prod.mk.injEq] at hrestc hrestc2
  have hrr : rc2 = rc := by
    have := hrc2.symm.trans hrc
    simpa using this
  refine ⟨ra, rb, rab, rc, hra, hrb, hrab, hrc, ?_, ?_⟩
  · rw [← hrestc.1, hwc, hwb, hwa]
  · rw [← hrestc2.1, hwc2, hwab, hrr]

/-- The sink after the run on `stream14` cut into buffers of 8, 8 and 12 bytes,
with the stand-in library. -/
theorem sink_8_8_12 :
    (run Liquid.standIn World.initial
        (deliveries stream14 [8, 8, 12] [Env.nominal, Env.nominal, Env.nominal])).toOption.map
        (fun x => x.1.sink) =
      some [0, 1 / 5, 1 / 5, 1 / 5, 1 / 5, 0, 1 / 5, 1 / 5, 1 / 5, 1 / 5, 0, 1 / 5, 1 / 5, 1 / 5,
        1 / 5] := by
  with_unfolding_all rfl

/-- The sink after the run on `stream14` cut into buffers of 16 and 12 bytes,
with the stand-in library. -/
theorem sink_16_12 :
    (run Liquid.standIn World.initial
        (deliveries stream14 [8 + 8, 12] [Env.nominal, Env.nominal])).toOption.map
        (fun x => x.1.sink) =
      some [0, -1 / 10, 1 / 5, 1 / 5, 1 / 5, 1 / 5, 0, 1 / 5, 1 / 5, 1 / 5, 1 / 5] := by
  with_unfolding_all rfl

/-- C4 fails as stated: with the stand-in library, the run on `stream14` cut
into `[8, 8, 12]` writes fifteen samples and the run on the same stream cut into
`[16, 12]` writes eleven. -/
theorem split_changes_output :
    ∃ w1 ts1 w2 ts2,
      run Liquid.standIn World.initial
        (deliveries stream14 [8, 8, 12] [Env.nominal, Env.nominal, Env.nominal]) =
          .ok (w1, ts1) ∧
      run Liquid.standIn World.initial
        (deliveries stream14 [8 + 8, 12] [Env.nominal, Env.nominal]) = .ok (w2, ts2) ∧
      w1.sink.length = 15 ∧ w2.sink.length = 11 ∧ w1.sink ≠ w2.sink := by
  have h1 := sink_8_8_12
  have h2 := sink_16_12
  cases hr1 : run Liquid.standIn World.initial
      (deliveries stream14 [8, 8, 12] [Env.nominal, Env.nominal, Env.nominal]) with
  | error f => rw [hr1] at h1; cases h1
  | ok x1 =>
    cases hr2 : run Liquid.standIn World.initial
        (deliveries stream14 [8 + 8, 12] [Env.nominal, Env.nominal]) with
    | error f => rw [hr2] at h2; cases h2
    | ok x2 =>
      rw [hr1] at h1
      rw [hr2] at h2
      simp only [Except.toOption, Option.map_some', Option.some.injEq] at h1 h2
      refine ⟨x1.1, x1.2, x2.1, x2.2, rfl, rfl, by rw [h1]; rfl, by rw [h2]; rfl, ?_⟩
      intro h
      have hl := congrArg List.length h
      rw [h1, h2] at hl
      simp at hl

/-- C4, evaluated on `stream14` cut into `[8, 8, 12]` and `[16, 12]`. -/
theorem split_runs_per_buffer_witness :
    ∃ (w1 w2 : World) (ts1 ts2 : List (Int × Trace (ℚ × ℚ) (ℚ × ComplexSample))),
      run Liquid.standIn World.initial
        (deliveries stream14 [8, 8, 12] [Env.nominal, Env.nominal, Env.nominal]) =
          .ok (w1, ts1) ∧
      run Liquid.standIn World.initial
        (deliveries stream14 [8 + 8, 12] [Env.nominal, Env.nominal]) = .ok (w2, ts2) ∧
      ∃ ra rb rab rc : Return (ℚ × ℚ) (ℚ × ComplexSample),
        rx_callback_traced Liquid.standIn (transfer_of (stream14.take 8)) Env.nominal
          World.initial = .ok ra ∧
        rx_callback_traced Liquid.standIn (transfer_of ((stream14.drop 8).take 8)) Env.nominal
          World.initial = .ok rb ∧
        rx_callback_traced Liquid.standIn (transfer_of (stream14.take (8 + 8))) Env.nominal
          World.initial = .ok rab ∧
        rx_callback_traced Liquid.standIn (transfer_of ((stream14.drop (8 + 8)).take 12))
          Env.nominal World.initial = .ok rc ∧
        w1.sink = World.initial.sink ++ ra.world.sink ++ rb.world.sink ++ rc.world.sink ∧
        w2.sink = World.initial.sink ++ rab.world.sink ++ rc.world.sink := by
  cases hr1 : run Liquid.standIn World.initial
      (deliveries stream14 [8, 8, 12] [Env.nominal, Env.nominal, Env.nominal]) with
  | error f => have h1 := sink_8_8_12; rw [hr1] at h1; cases h1
  | ok x1 =>
    cases hr2 : run Liquid.standIn World.initial
        (deliveries stream14 [8 + 8, 12] [Env.nominal, Env.nominal]) with
    | error f => have h2 := sink_16_12; rw [hr2] at h2; cases h2
    | ok x2 =>
      exact ⟨x1.1, x2.1, x1.2, x2.2, rfl, rfl,
        split_runs_per_buffer Liquid.standIn stream14 8 8 12 Env.nominal
          Env.nominal Env.nominal Env.nominal World.initial x1.1 x2.1 x1.2 x2.2 hr1 hr2⟩

end PracticeRfRx
